import Mathlib

/-!
Shallow embedding of the money-calendar projection & recurrence engine:
`computeProjection` and `generateRecurringTransactions` from `src/lib/finance.ts`
(pattern-inference variant) together with the flag-driven variant of
`generateRecurringTransactions` from the related module of the repository.

Modelling conventions:
* A calendar date is an epoch day number (`Int`, days since 1970-01-01);
  it stands for a JS `Date` at local midnight, and for the `YYYY-MM-DD`
  slice of an ISO string (string comparison of such slices agrees with the
  numeric order of epoch days).  `civilFromDays` / `daysFromCivil` translate
  between epoch days and calendar components by the standard proleptic
  Gregorian civil-from-days / days-from-civil algorithms, split into their
  intermediate quantities so that each step can be reasoned about.
* JS `number` amounts/balances are modelled as rationals (`ℚ`); the constants
  `0.8` / `0.2` become `4/5` / `1/5`.
* The `while` loops of the source are bounded by their own counters
  (50-instance caps, 31-step income scan); they are embedded with exactly
  that bound as structural fuel, so the embedding is total and agrees with
  the source loop step by step.
-/

namespace MoneyCalendar

/-! ## Calendar arithmetic -/

/-- Leap year predicate of the Gregorian calendar. -/
def isLeap (y : Int) : Bool :=
  (y % 4 == 0 && y % 100 != 0) || y % 400 == 0

/-- Number of days in month `m` (1-based, 1..12) of year `y`. -/
def daysInMonthC (y m : Int) : Int :=
  if m = 2 then (if isLeap y then 29 else 28)
  else if m = 4 ∨ m = 6 ∨ m = 9 ∨ m = 11 then 30
  else 31

/-- Number of days in month `m` (0-based, 0..11, the JS convention). -/
def daysInMonth0 (y m : Int) : Int := daysInMonthC y (m + 1)

/-- Calendar components of a date; `month` is 1-based (1..12). -/
structure Civil where
  year : Int
  month : Int
  day : Int
  deriving DecidableEq, Repr

/-- Shifted year of days-from-civil (the year starts in March). -/
def dfcYsh (y m : Int) : Int := if m ≤ 2 then y - 1 else y

/-- Era (400-year block) of days-from-civil. -/
def dfcEra (y m : Int) : Int := dfcYsh y m / 400

/-- Year-of-era of days-from-civil. -/
def dfcYoe (y m : Int) : Int := dfcYsh y m - dfcEra y m * 400

/-- Shifted month index (March = 0) of days-from-civil. -/
def dfcMp (m : Int) : Int := if 2 < m then m - 3 else m + 9

/-- Day-of-shifted-year of days-from-civil. -/
def dfcDoy (m d : Int) : Int := (153 * dfcMp m + 2) / 5 + d - 1

/-- Epoch day number of the civil date `(y, m, d)` with `m` 1-based. -/
def daysFromCivil (y m d : Int) : Int :=
  dfcEra y m * 146097 +
    (dfcYoe y m * 365 + dfcYoe y m / 4 - dfcYoe y m / 100 + dfcDoy m d) - 719468

/-- Era of an epoch day (civil-from-days). -/
def cfdEra (z : Int) : Int := (z + 719468) / 146097

/-- Day-of-era of an epoch day (civil-from-days). -/
def cfdDoe (z : Int) : Int := (z + 719468) - cfdEra z * 146097

/-- Year-of-era of an epoch day (civil-from-days). -/
def cfdYoe (z : Int) : Int :=
  (cfdDoe z - cfdDoe z / 1460 + cfdDoe z / 36524 - cfdDoe z / 146096) / 365

/-- Day-of-shifted-year of an epoch day (civil-from-days). -/
def cfdDoy (z : Int) : Int :=
  cfdDoe z - (365 * cfdYoe z + cfdYoe z / 4 - cfdYoe z / 100)

/-- Shifted month index of an epoch day (civil-from-days). -/
def cfdMp (z : Int) : Int := (5 * cfdDoy z + 2) / 153

/-- Civil day-of-month of an epoch day (civil-from-days). -/
def cfdD (z : Int) : Int := cfdDoy z - (153 * cfdMp z + 2) / 5 + 1

/-- Civil month (1-based) of an epoch day (civil-from-days). -/
def cfdM (z : Int) : Int := if cfdMp z < 10 then cfdMp z + 3 else cfdMp z - 9

/-- Calendar components of an epoch day number. -/
def civilFromDays (z : Int) : Civil :=
  ⟨if cfdM z ≤ 2 then cfdYoe z + cfdEra z * 400 + 1 else cfdYoe z + cfdEra z * 400,
   cfdM z, cfdD z⟩

/-- Leap-year condition expressed on a year-of-era. -/
def leapYoe (yoe : Int) : Prop :=
  ((yoe + 1) % 4 = 0 ∧ (yoe + 1) % 100 ≠ 0) ∨ (yoe + 1) % 400 = 0

set_option maxHeartbeats 10000000 in
/-- The year-of-era is recovered from the day-of-era. -/
theorem yoe_recovery (yoe doy : Int) (h1 : 0 ≤ yoe) (h2 : yoe ≤ 399) (h3 : 0 ≤ doy)
    (h4 : doy ≤ 364 ∨ (doy = 365 ∧ leapYoe yoe)) :
    ((yoe * 365 + yoe / 4 - yoe / 100 + doy)
      - (yoe * 365 + yoe / 4 - yoe / 100 + doy) / 1460
      + (yoe * 365 + yoe / 4 - yoe / 100 + doy) / 36524
      - (yoe * 365 + yoe / 4 - yoe / 100 + doy) / 146096) / 365 = yoe := by
  unfold leapYoe at h4
  interval_cases yoe <;> omega

section Eval
variable (era yoe doy : Int)

theorem cfdEra_eval (h1 : 0 ≤ yoe) (h2 : yoe ≤ 399) (h3 : 0 ≤ doy) (h5 : doy ≤ 365) :
    cfdEra (era * 146097 + (yoe * 365 + yoe / 4 - yoe / 100 + doy) - 719468) = era := by
  unfold cfdEra; omega

theorem cfdDoe_eval (h1 : 0 ≤ yoe) (h2 : yoe ≤ 399) (h3 : 0 ≤ doy) (h5 : doy ≤ 365) :
    cfdDoe (era * 146097 + (yoe * 365 + yoe / 4 - yoe / 100 + doy) - 719468)
      = yoe * 365 + yoe / 4 - yoe / 100 + doy := by
  unfold cfdDoe
  rw [cfdEra_eval era yoe doy h1 h2 h3 h5]
  ring

theorem cfdYoe_eval (h1 : 0 ≤ yoe) (h2 : yoe ≤ 399) (h3 : 0 ≤ doy)
    (h4 : doy ≤ 364 ∨ (doy = 365 ∧ leapYoe yoe)) :
    cfdYoe (era * 146097 + (yoe * 365 + yoe / 4 - yoe / 100 + doy) - 719468) = yoe := by
  have h5 : doy ≤ 365 := by rcases h4 with h | ⟨h, _⟩ <;> omega
  unfold cfdYoe
  rw [cfdDoe_eval era yoe doy h1 h2 h3 h5]
  exact yoe_recovery yoe doy h1 h2 h3 h4

theorem cfdDoy_eval (h1 : 0 ≤ yoe) (h2 : yoe ≤ 399) (h3 : 0 ≤ doy)
    (h4 : doy ≤ 364 ∨ (doy = 365 ∧ leapYoe yoe)) :
    cfdDoy (era * 146097 + (yoe * 365 + yoe / 4 - yoe / 100 + doy) - 719468) = doy := by
  have h5 : doy ≤ 365 := by rcases h4 with h | ⟨h, _⟩ <;> omega
  unfold cfdDoy
  rw [cfdDoe_eval era yoe doy h1 h2 h3 h5, cfdYoe_eval era yoe doy h1 h2 h3 h4]
  ring

theorem cfdMp_eval (h1 : 0 ≤ yoe) (h2 : yoe ≤ 399) (h3 : 0 ≤ doy)
    (h4 : doy ≤ 364 ∨ (doy = 365 ∧ leapYoe yoe)) :
    cfdMp (era * 146097 + (yoe * 365 + yoe / 4 - yoe / 100 + doy) - 719468)
      = (5 * doy + 2) / 153 := by
  unfold cfdMp
  rw [cfdDoy_eval era yoe doy h1 h2 h3 h4]

theorem cfdD_eval (h1 : 0 ≤ yoe) (h2 : yoe ≤ 399) (h3 : 0 ≤ doy)
    (h4 : doy ≤ 364 ∨ (doy = 365 ∧ leapYoe yoe)) :
    cfdD (era * 146097 + (yoe * 365 + yoe / 4 - yoe / 100 + doy) - 719468)
      = doy - (153 * ((5 * doy + 2) / 153) + 2) / 5 + 1 := by
  unfold cfdD
  rw [cfdDoy_eval era yoe doy h1 h2 h3 h4, cfdMp_eval era yoe doy h1 h2 h3 h4]

theorem cfdM_eval (h1 : 0 ≤ yoe) (h2 : yoe ≤ 399) (h3 : 0 ≤ doy)
    (h4 : doy ≤ 364 ∨ (doy = 365 ∧ leapYoe yoe)) :
    cfdM (era * 146097 + (yoe * 365 + yoe / 4 - yoe / 100 + doy) - 719468)
      = (if (5 * doy + 2) / 153 < 10 then (5 * doy + 2) / 153 + 3
         else (5 * doy + 2) / 153 - 9) := by
  unfold cfdM
  rw [cfdMp_eval era yoe doy h1 h2 h3 h4]

end Eval

/-- Bounds of the year-of-era in the days-from-civil decomposition. -/
theorem dfcYoe_bounds (y m : Int) : 0 ≤ dfcYoe y m ∧ dfcYoe y m ≤ 399 := by
  unfold dfcYoe dfcEra dfcYsh
  split <;> constructor <;> omega

/-- Bounds of the day-of-shifted-year in the days-from-civil decomposition. -/
theorem dfcDoy_bounds (y m d : Int) (h1 : 1 ≤ m) (h2 : m ≤ 12) (h3 : 1 ≤ d)
    (h4 : d ≤ daysInMonthC y m) :
    0 ≤ dfcDoy m d ∧
      (dfcDoy m d ≤ 364 ∨ (dfcDoy m d = 365 ∧ leapYoe (dfcYoe y m))) := by
  unfold daysInMonthC isLeap at h4
  unfold dfcDoy dfcMp leapYoe
  unfold dfcYoe dfcEra dfcYsh
  simp only [Bool.or_eq_true, Bool.and_eq_true, beq_iff_eq, bne_iff_ne] at h4
  interval_cases m <;> simp_all <;> omega

set_option maxHeartbeats 1000000 in
/-- Full roundtrip: `civilFromDays` inverts `daysFromCivil` on valid dates. -/
theorem civilFromDays_daysFromCivil (y m d : Int) (h1 : 1 ≤ m) (h2 : m ≤ 12)
    (h3 : 1 ≤ d) (h4 : d ≤ daysInMonthC y m) :
    civilFromDays (daysFromCivil y m d) = ⟨y, m, d⟩ := by
  obtain ⟨hy1, hy2⟩ := dfcYoe_bounds y m
  obtain ⟨hd1, hd2⟩ := dfcDoy_bounds y m d h1 h2 h3 h4
  unfold daysInMonthC isLeap at h4
  simp only [Bool.or_eq_true, Bool.and_eq_true, beq_iff_eq, bne_iff_ne] at h4
  unfold civilFromDays daysFromCivil
  rw [cfdM_eval _ _ _ hy1 hy2 hd1 hd2, cfdD_eval _ _ _ hy1 hy2 hd1 hd2,
      cfdYoe_eval _ _ _ hy1 hy2 hd1 hd2, cfdEra_eval _ _ _ hy1 hy2 hd1
        (by rcases hd2 with h | ⟨h, _⟩ <;> omega)]
  simp only [Civil.mk.injEq]
  have hdoy : dfcDoy m d = (153 * dfcMp m + 2) / 5 + d - 1 := rfl
  have hyoe : dfcYoe y m = dfcYsh y m - (dfcYsh y m / 400) * 400 := rfl
  have hysh : dfcYsh y m = if m ≤ 2 then y - 1 else y := rfl
  have hmp : dfcMp m = if 2 < m then m - 3 else m + 9 := rfl
  have hera : dfcEra y m = dfcYsh y m / 400 := rfl
  rw [hera] at *
  interval_cases m <;>
    simp only [hdoy, hmp, hysh] at * <;>
    norm_num at * <;>
    split_ifs <;>
    omega

/-- `daysFromCivil` is linear in the day argument. -/
theorem daysFromCivil_add (y m d k : Int) :
    daysFromCivil y m (d + k) = daysFromCivil y m d + k := by
  unfold daysFromCivil dfcDoy; ring

set_option maxHeartbeats 2000000 in
/-- The day after the last day of a month is the first day of the next month. -/
theorem daysFromCivil_next (y M : Int) (h1 : 1 ≤ M) (h2 : M ≤ 12) :
    daysFromCivil y M (daysInMonthC y M) + 1 =
      daysFromCivil (if M = 12 then y + 1 else y) (if M = 12 then 1 else M + 1) 1 := by
  unfold daysInMonthC isLeap daysFromCivil dfcYoe dfcEra dfcYsh dfcDoy dfcMp
  interval_cases M <;>
    simp only [Bool.or_eq_true, Bool.and_eq_true, beq_iff_eq, bne_iff_ne] <;>
    norm_num <;> (try split_ifs) <;> omega

/-- JS `new Date(y, m, d)` with 0-based month `m`, as an epoch day:
month overflow folds into the year, then the day offsets from the first of
the month (this is exactly the JS normalization for arbitrary `d`). -/
def jsMkDate (y m d : Int) : Int :=
  daysFromCivil (y + m / 12) (m % 12 + 1) 1 + (d - 1)

/-- JS `Date.prototype.getFullYear`. -/
def getFullYear (e : Int) : Int := (civilFromDays e).year

/-- JS `Date.prototype.getMonth` (0-based month). -/
def getMonth (e : Int) : Int := (civilFromDays e).month - 1

/-- JS `Date.prototype.getDate` (day of month). -/
def getDate (e : Int) : Int := (civilFromDays e).day

/-- JS `Date.prototype.getDay` (0 = Sunday): 1970-01-01 was a Thursday. -/
def getDay (e : Int) : Int := (e + 4) % 7

theorem jsMkDate_eq (y m d : Int) (hm1 : 0 ≤ m) (hm2 : m ≤ 11) :
    jsMkDate y m d = daysFromCivil y (m + 1) d := by
  unfold jsMkDate
  rw [show y + m / 12 = y by omega, show m % 12 + 1 = m + 1 by omega,
    show d = 1 + (d - 1) by ring, daysFromCivil_add]
  ring_nf

/-- `new Date(y, m, d)` with an in-range day stays in month `m`. -/
theorem getMonth_jsMkDate_of_le (y m d : Int) (hm1 : 0 ≤ m) (hm2 : m ≤ 11)
    (hd1 : 1 ≤ d) (hd2 : d ≤ daysInMonth0 y m) : getMonth (jsMkDate y m d) = m := by
  rw [jsMkDate_eq y m d hm1 hm2]
  unfold getMonth
  rw [civilFromDays_daysFromCivil y (m + 1) d (by omega) (by omega) hd1 hd2]
  ring

set_option maxHeartbeats 2000000 in
/-- `new Date(y, m, d)` with an overflowing day spills into the next month. -/
theorem getMonth_jsMkDate_of_gt (y m d : Int) (hm1 : 0 ≤ m) (hm2 : m ≤ 11)
    (hd1 : daysInMonth0 y m < d) (hd2 : d ≤ 31) :
    getMonth (jsMkDate y m d) = (if m = 11 then 0 else m + 1) := by
  rw [jsMkDate_eq y m d hm1 hm2]
  have hdm : 1 ≤ d - daysInMonthC y (m + 1) ∧ d - daysInMonthC y (m + 1) ≤ 3 := by
    unfold daysInMonth0 at hd1
    unfold daysInMonthC isLeap at hd1 ⊢
    split_ifs at hd1 ⊢ <;> omega
  rw [show (d : Int) = 1 + (d - 1) by ring, daysFromCivil_add,
    show daysFromCivil y (m + 1) 1 + (d - 1)
      = daysFromCivil y (m + 1) (daysInMonthC y (m + 1)) + 1
        + (d - daysInMonthC y (m + 1) - 1) by
      rw [show daysInMonthC y (m+1) = 1 + (daysInMonthC y (m+1) - 1) by ring,
        daysFromCivil_add]; ring,
    daysFromCivil_next y (m + 1) (by omega) (by omega)]
  unfold getMonth
  rcases eq_or_ne m 11 with h11 | h11
  · subst h11
    rw [if_pos (by norm_num), if_pos (by norm_num), if_pos rfl]
    rw [← daysFromCivil_add (y + 1) 1 1 (d - daysInMonthC y (11 + 1) - 1),
      show (1 : Int) + (d - daysInMonthC y (11 + 1) - 1) = d - daysInMonthC y (11 + 1) by
        ring]
    rw [civilFromDays_daysFromCivil (y + 1) 1 (d - daysInMonthC y (11 + 1)) (by omega)
      (by omega) (by omega)
      (by unfold daysInMonthC isLeap at hdm ⊢; norm_num at hdm ⊢; omega)]
    norm_num
  · rw [if_neg (by omega), if_neg (by omega), if_neg h11]
    rw [← daysFromCivil_add y (m + 1 + 1) 1 (d - daysInMonthC y (m + 1) - 1),
      show (1 : Int) + (d - daysInMonthC y (m + 1) - 1) = d - daysInMonthC y (m + 1) by ring]
    rw [civilFromDays_daysFromCivil y (m + 1 + 1) (d - daysInMonthC y (m + 1)) (by omega)
      (by omega) (by omega)
      (by unfold daysInMonthC isLeap at hdm ⊢; split_ifs <;> omega)]
    ring

/-! ## Data model (`finance.ts` types) -/

/-- The `TransactionType` union. -/
inductive TxType where
  | bill | paycheck | internal_transfer | income | expense | other
  deriving DecidableEq, Repr

/-- The `RecurringSchedule.frequency` union. -/
inductive Freq where
  | daily | weekly | monthly | yearly
  deriving DecidableEq, Repr

/-- The `RecurringSchedule` type. -/
structure RecurringSchedule where
  frequency : Freq
  interval : Int
  deriving DecidableEq, Repr

/-- The `Transaction` type; `date` is the epoch day of the ISO date string. -/
structure Transaction where
  id : String
  name : String
  amount : ℚ
  date : Int
  type : TxType
  recurring : Bool
  schedule : Option RecurringSchedule
  deriving DecidableEq, Repr

/-- The `ScheduleConfig` type. -/
structure ScheduleConfig where
  monthsToProject : Int
  payPeriodDays : Int
  averagePaycheckAmount : ℚ
  deriving DecidableEq, Repr

/-- The `DailyProjection` output record; `date` is an epoch day. -/
structure DailyProjection where
  date : Int
  startingBalance : ℚ
  transactions : List Transaction
  totalIncome : ℚ
  totalExpenses : ℚ
  endingBalance : ℚ
  safeToSpend : ℚ
  safeToSave : ℚ
  daysUntilNextIncome : Nat
  isHistorical : Bool
  deriving DecidableEq, Repr

/-- Result of `computeProjection`. -/
structure ProjectionResult where
  periods : List DailyProjection
  finalBalance : ℚ
  deriving DecidableEq, Repr

/-- Ordering of transactions used by `sort((a, b) => a.date.localeCompare(b.date))`:
for `YYYY-MM-DD` slices the string order is the epoch-day order. -/
def dateLe (a b : Transaction) : Prop := a.date ≤ b.date

instance : DecidableRel dateLe := fun a b => inferInstanceAs (Decidable (a.date ≤ b.date))

/-! ## Recurrence generator, pattern-inference variant (`finance.ts`) -/

/-- ASCII lower-casing of a name, character by character (the effect of JS
`toLowerCase` on the ASCII names considered here), written structurally so
that it evaluates by reduction. -/
def jsToLower (s : String) : String := String.mk (s.data.map Char.toLower)

/-- Grouping key: `name.toLowerCase()` plus the transaction type. -/
def txKey (t : Transaction) : String × TxType := (jsToLower t.name, t.type)

/-- Deduplicate keys keeping the first occurrence (the iteration order of a JS
`Map` keyed by insertion order). -/
def dedupKeys : List (String × TxType) → List (String × TxType)
  | [] => []
  | k :: ks => k :: (dedupKeys ks).filter (fun k2 => decide (k2 ≠ k))

/-- Day deltas between consecutive dates, keeping only deltas in `(0, 90]`. -/
def intervalsOf : List Int → List Int
  | a :: b :: rest =>
      (if 0 < b - a ∧ b - a ≤ 90 then [b - a] else []) ++ intervalsOf (b :: rest)
  | _ => []

/-- JS `Math.round` (round half toward positive infinity). -/
def jsRound (q : ℚ) : Int := ⌊q + 1 / 2⌋

/-- A synthesized future instance: copies name/amount/type of its anchor,
id gets an ordinal suffix, `recurring` is set. -/
def mkFutureTx (base : Transaction) (count : Nat) (date : Int) (freq : Freq) :
    Transaction :=
  { id := base.id ++ "-future-" ++ toString count
    name := base.name
    amount := base.amount
    date := date
    type := base.type
    recurring := true
    schedule := some ⟨freq, 1⟩ }

/-- The frequency recorded on a paycheck/bi-weekly synthetic instance. -/
def freqOfInterval (intervalDays : Int) : Freq :=
  if intervalDays ≤ 7 then .weekly else if intervalDays ≤ 31 then .monthly else .yearly

/-- The paycheck/bi-weekly generation loop
(`while (nextDate <= endDate && instanceCount < 50)`); the fuel argument is
the number of remaining iterations of the 50-capped counter. -/
def biweeklyGo (base : Transaction) (intervalDays endDate : Int) :
    Int → Nat → Nat → List Transaction
  | _, _, 0 => []
  | nextDate, count, fuel + 1 =>
    if nextDate ≤ endDate ∧ count < 50 then
      mkFutureTx base count nextDate (freqOfInterval intervalDays)
        :: biweeklyGo base intervalDays endDate (nextDate + intervalDays) (count + 1) fuel
    else []

/-- One monthly-cadence occurrence: `new Date(y, m, dayOfMonth)`, clamped to the
last day of the month (`new Date(y, m + 1, 0)`) when the day does not exist in
that month (detected via `getMonth`). -/
def monthOccurrence (cy cm dayOfMonth : Int) : Int :=
  if getMonth (jsMkDate cy cm dayOfMonth) ≠ cm then jsMkDate cy (cm + 1) 0
  else jsMkDate cy cm dayOfMonth

/-- Month increment with the source's manual wrap-around of the 0-based month. -/
def nextMonth (cy cm : Int) : Int × Int :=
  if cm + 1 > 11 then (cy + 1, 0) else (cy, cm + 1)

/-- The bill/expense monthly generation loop (`while (instanceCount < 50)` with
a `nextDate > endDate` break); fuel = remaining iterations of the counter. -/
def monthlyGo (base : Transaction) (dayOfMonth endDate : Int) :
    Int → Int → Nat → Nat → List Transaction
  | _, _, _, 0 => []
  | cy, cm, count, fuel + 1 =>
    let nd := monthOccurrence cy cm dayOfMonth
    if nd > endDate then []
    else
      mkFutureTx base count nd .monthly
        :: monthlyGo base dayOfMonth endDate (nextMonth cy cm).1 (nextMonth cy cm).2
            (count + 1) fuel

/-- Average of the interval list (default 30 when empty). -/
def avgIntervalOf (intervals : List Int) : ℚ :=
  if 0 < intervals.length then
    ((intervals.map (fun i => (i : ℚ))).sum) / (intervals.length : ℚ)
  else 30

/-- Recurrence synthesis for one `(name, type)` group, given the last
transaction of the date-sorted group. -/
def genForGroupCore (today endDate : Int) (group : List Transaction)
    (lastTx : Transaction) : List Transaction :=
  let sorted := List.insertionSort dateLe group
  let lastDate := lastTx.date
  let avgInterval := avgIntervalOf (intervalsOf (sorted.map (fun t => t.date)))
  let isBiWeekly := 10 ≤ avgInterval ∧ avgInterval ≤ 18
  if lastDate < today then
    if lastTx.type = .paycheck ∨ isBiWeekly then
      let intervalDays := jsRound avgInterval
      biweeklyGo lastTx intervalDays endDate (lastDate + intervalDays) 0 50
    else
      let c := civilFromDays lastDate
      let start := nextMonth c.year (c.month - 1)
      monthlyGo lastTx c.day endDate start.1 start.2 0 50
  else []

/-- Recurrence synthesis for one `(name, type)` group of transactions. -/
def genForGroup (today endDate : Int) (group : List Transaction) : List Transaction :=
  if group.length < 1 then []
  else
    match (List.insertionSort dateLe group).getLast? with
    | none => []
    | some lastTx => genForGroupCore today endDate group lastTx

/-- `generateRecurringTransactions` (pattern-inference variant): group by
lowercased name and type, then synthesize per group. -/
def generateRecurringTransactions (transactions : List Transaction)
    (endDate today : Int) : List Transaction :=
  (dedupKeys (transactions.map txKey)).flatMap
    (fun k => genForGroup today endDate
      (transactions.filter (fun t => decide (txKey t = k))))

/-! ## Recurrence generator, flag-driven variant (related module) -/

/-- `adjustForWeekend`: Sunday moves forward one day, Saturday two. -/
def adjustForWeekend (e : Int) : Int :=
  if getDay e = 0 then e + 1
  else if getDay e = 6 then e + 2
  else e

/-- The flag-driven monthly loop: monthly occurrence, weekend-adjusted,
until past the horizon or 50 instances. -/
def flagMonthlyGo (base : Transaction) (dayOfMonth endDate : Int) :
    Int → Int → Nat → Nat → List Transaction
  | _, _, _, 0 => []
  | cy, cm, count, fuel + 1 =>
    let nd := adjustForWeekend (monthOccurrence cy cm dayOfMonth)
    if nd > endDate then []
    else
      mkFutureTx base count nd .monthly
        :: flagMonthlyGo base dayOfMonth endDate (nextMonth cy cm).1 (nextMonth cy cm).2
            (count + 1) fuel

/-- `generateRecurringTransactions` (flag-driven variant): every transaction
marked `recurring` repeats monthly on its day-of-month, starting this month
unless that date already passed. -/
def generateRecurringTransactionsFlag (transactions : List Transaction)
    (endDate today : Int) : List Transaction :=
  (transactions.filter (fun t => t.recurring)).flatMap fun t =>
    let dayOfMonth := (civilFromDays t.date).day
    let tc := civilFromDays today
    let cm0 := tc.month - 1
    let start :=
      if jsMkDate tc.year cm0 dayOfMonth < today then nextMonth tc.year cm0
      else (tc.year, cm0)
    flagMonthlyGo t dayOfMonth endDate start.1 start.2 0 50

/-! ## Daily ledger walk (`computeProjection`) -/

/-- Income-side classification of one transaction for a day bucket. -/
def isIncomeTx (t : Transaction) : Bool :=
  decide (t.type = .paycheck) || decide (t.type = .income)
    || (decide (t.type = .internal_transfer) && decide ((0 : ℚ) < t.amount))

/-- Expense-side classification of one transaction for a day bucket. -/
def isExpenseTx (t : Transaction) : Bool :=
  decide (t.type = .bill) || decide (t.type = .expense)
    || (decide (t.type = .internal_transfer) && decide (t.amount < (0 : ℚ)))

/-- Day income: sum of absolute amounts over the income-side bucket. -/
def actualIncomeOf (ts : List Transaction) : ℚ :=
  ((ts.filter isIncomeTx).map (fun t => |t.amount|)).sum

/-- Day expenses: sum of absolute amounts over the expense-side bucket. -/
def actualExpensesOf (ts : List Transaction) : ℚ :=
  ((ts.filter isExpenseTx).map (fun t => |t.amount|)).sum

/-- Whether a day bucket contains an income-side transaction. -/
def hasIncomeTx (ts : List Transaction) : Bool := ts.any isIncomeTx

/-- The forward income scan
(`while (futureDate <= endDate) { futureDate++; counter++;
if income break; if counter > 30 break; }`); at most 31 iterations can run, so
fuel 31 reproduces the loop exactly. -/
def daysUntilGo (txByDate : Int → List Transaction) (endDate : Int) :
    Int → Nat → Nat → Nat
  | _, c, 0 => c
  | fd, c, fuel + 1 =>
    if fd ≤ endDate then
      if hasIncomeTx (txByDate (fd + 1)) then c + 1
      else if c + 1 > 30 then c + 1
      else daysUntilGo txByDate endDate (fd + 1) (c + 1) fuel
    else c

/-- `daysUntilNextIncome` for one (non-historical) day. -/
def daysUntilNextIncomeOf (txByDate : Int → List Transaction) (endDate day : Int) : Nat :=
  daysUntilGo txByDate endDate day 0 31

/-- Upcoming expenses over the look-ahead window
(`for (i = 0; i < daysUntilNextIncome && i < 30; i++)`). -/
def upcomingExpensesOf (txByDate : Int → List Transaction) (day : Int) (dun : Nat) : ℚ :=
  ((List.range (min dun 30)).map
    (fun (i : Nat) => actualExpensesOf (txByDate (day + (i : Int) + 1)))).sum

/-- The balance update of one projection day: future days apply the day's
(projected) income and expenses, today resets to the supplied starting
balance, historical days leave the running balance unchanged. -/
def dayEndingBalance (txByDate : Int → List Transaction) (startingBalance : ℚ)
    (today : Int) (currentBalance : ℚ) (day : Int) : ℚ :=
  let isHistorical := day < today
  let isToday := day = today
  let income := if isToday then 0 else actualIncomeOf (txByDate day)
  let expenses := if isToday then 0 else actualExpensesOf (txByDate day)
  if ¬isHistorical ∧ ¬isToday then currentBalance + income - expenses
  else if isToday then startingBalance
  else currentBalance

/-- The `daysUntilNextIncome` value recorded for one projection day. -/
def dayDun (txByDate : Int → List Transaction) (today endDate day : Int) : Nat :=
  if day < today then 0 else daysUntilNextIncomeOf txByDate endDate day

/-- One iteration of the daily projection loop: builds the day's record and
the updated running balance. -/
def projOneDay (txByDate : Int → List Transaction) (startingBalance : ℚ)
    (today endDate : Int) (currentBalance : ℚ) (day : Int) : DailyProjection × ℚ :=
  let isHistorical := day < today
  let isToday := day = today
  let dayTransactions := txByDate day
  let actInc := actualIncomeOf dayTransactions
  let actExp := actualExpensesOf dayTransactions
  let startingBalanceForDay := if isToday then startingBalance else currentBalance
  let newBalance := dayEndingBalance txByDate startingBalance today currentBalance day
  let dun := dayDun txByDate today endDate day
  let safeToSpend :=
    if isHistorical then 0
    else max 0 ((newBalance - upcomingExpensesOf txByDate day dun) * (4 / 5))
  let safeToSave :=
    if isHistorical then 0
    else max 0 ((newBalance - upcomingExpensesOf txByDate day dun) * (1 / 5))
  (⟨day, startingBalanceForDay, dayTransactions, actInc, actExp, newBalance,
    safeToSpend, safeToSave, dun, isHistorical⟩, newBalance)

/-- The daily projection loop over a list of days, threading the balance. -/
def projDays (txByDate : Int → List Transaction) (startingBalance : ℚ)
    (today endDate : Int) : List Int → ℚ → List DailyProjection × ℚ
  | [], bal => ([], bal)
  | d :: ds, bal =>
    let pr := projOneDay txByDate startingBalance today endDate bal d
    let rest := projDays txByDate startingBalance today endDate ds pr.2
    (pr.1 :: rest.1, rest.2)

/-- `addMonths` (JS `setMonth(getMonth() + k)` on a midnight date). -/
def addMonthsE (e k : Int) : Int :=
  jsMkDate (civilFromDays e).year ((civilFromDays e).month - 1 + k) (civilFromDays e).day

/-- Projection horizon: `addMonths(today, config.monthsToProject)`. -/
def horizonEnd (today : Int) (config : ScheduleConfig) : Int :=
  addMonthsE today config.monthsToProject

/-- Projection window start: `min(addMonths(today, -3), earliest transaction)`. -/
def windowStart (transactions : List Transaction) (today : Int) : Int :=
  let sorted := List.insertionSort dateLe transactions
  let earliest := match sorted.head? with
    | none => today
    | some t => t.date
  min (addMonthsE today (-3)) earliest

/-- The per-day transaction index
(the `transactionsByDate` map keyed by the date slice). -/
def txIndex (transactions : List Transaction) (endDate today : Int) :
    Int → List Transaction :=
  let sortedHist := List.insertionSort dateLe transactions
  let recurring := generateRecurringTransactions transactions endDate today
  let allWith := List.insertionSort dateLe (sortedHist ++ recurring)
  fun d => allWith.filter (fun t => decide (t.date = d))

/-- The list of days walked by the projection loop. -/
def projectionDays (startDate endDate : Int) : List Int :=
  (List.range (endDate - startDate + 1).toNat).map (fun (i : Nat) => startDate + (i : Int))

/-- `computeProjection` — the projection orchestrator.  `today` is the value
of `startOfDay(new Date())`, passed explicitly since the embedding has no
clock. -/
def computeProjection (transactions : List Transaction) (startingBalance : ℚ)
    (config : ScheduleConfig) (today : Int) : ProjectionResult :=
  let endDate := horizonEnd today config
  let startDate := windowStart transactions today
  let txByDate := txIndex transactions endDate today
  let res := projDays txByDate startingBalance today endDate
    (projectionDays startDate endDate) startingBalance
  ⟨res.1, res.2⟩

/-! ## Structural lemmas about the daily walk -/

section WalkLemmas

variable (txB : Int → List Transaction) (sb : ℚ) (today endDate : Int)

theorem projOneDay_date (bal : ℚ) (day : Int) :
    ((projOneDay txB sb today endDate bal day).1).date = day := rfl

theorem projOneDay_startingBalance (bal : ℚ) (day : Int) :
    ((projOneDay txB sb today endDate bal day).1).startingBalance
      = if day = today then sb else bal := rfl

theorem projOneDay_transactions (bal : ℚ) (day : Int) :
    ((projOneDay txB sb today endDate bal day).1).transactions = txB day := rfl

theorem projOneDay_totalIncome (bal : ℚ) (day : Int) :
    ((projOneDay txB sb today endDate bal day).1).totalIncome
      = actualIncomeOf (txB day) := rfl

theorem projOneDay_totalExpenses (bal : ℚ) (day : Int) :
    ((projOneDay txB sb today endDate bal day).1).totalExpenses
      = actualExpensesOf (txB day) := rfl

theorem projOneDay_endingBalance (bal : ℚ) (day : Int) :
    ((projOneDay txB sb today endDate bal day).1).endingBalance
      = dayEndingBalance txB sb today bal day := rfl

theorem projOneDay_snd (bal : ℚ) (day : Int) :
    (projOneDay txB sb today endDate bal day).2
      = dayEndingBalance txB sb today bal day := rfl

theorem projOneDay_dun (bal : ℚ) (day : Int) :
    ((projOneDay txB sb today endDate bal day).1).daysUntilNextIncome
      = dayDun txB today endDate day := rfl

theorem projOneDay_isHistorical (bal : ℚ) (day : Int) :
    ((projOneDay txB sb today endDate bal day).1).isHistorical
      = decide (day < today) := rfl

theorem projOneDay_safeToSpend (bal : ℚ) (day : Int) :
    ((projOneDay txB sb today endDate bal day).1).safeToSpend
      = if day < today then 0
        else max 0 ((dayEndingBalance txB sb today bal day
          - upcomingExpensesOf txB day (dayDun txB today endDate day)) * (4 / 5)) := rfl

theorem projOneDay_safeToSave (bal : ℚ) (day : Int) :
    ((projOneDay txB sb today endDate bal day).1).safeToSave
      = if day < today then 0
        else max 0 ((dayEndingBalance txB sb today bal day
          - upcomingExpensesOf txB day (dayDun txB today endDate day)) * (1 / 5)) := rfl

/-- Running balance after processing a prefix of days. -/
def balThread (bal : ℚ) (days : List Int) : ℚ :=
  days.foldl (fun b d => (projOneDay txB sb today endDate b d).2) bal

theorem balThread_nil (bal : ℚ) : balThread txB sb today endDate bal [] = bal := rfl

theorem balThread_cons (bal : ℚ) (d : Int) (ds : List Int) :
    balThread txB sb today endDate bal (d :: ds)
      = balThread txB sb today endDate (projOneDay txB sb today endDate bal d).2 ds := rfl

theorem projDays_length (days : List Int) (bal : ℚ) :
    ((projDays txB sb today endDate days bal).1).length = days.length := by
  induction days generalizing bal with
  | nil => rfl
  | cons d ds ih => simp [projDays, ih]

theorem projDays_snd (days : List Int) (bal : ℚ) :
    (projDays txB sb today endDate days bal).2 = balThread txB sb today endDate bal days := by
  induction days generalizing bal with
  | nil => rfl
  | cons d ds ih => simp [projDays, ih, balThread_cons]

theorem projDays_map_date (days : List Int) (bal : ℚ) :
    ((projDays txB sb today endDate days bal).1).map (fun p => p.date) = days := by
  induction days generalizing bal with
  | nil => rfl
  | cons d ds ih => simp [projDays, ih, projOneDay_date]

/-- Element characterization of the walk: the record at index `i` is the
one-day projection of `days[i]` fed with the balance threaded through the
first `i` days. -/
theorem projDays_get? (days : List Int) (bal : ℚ) (i : Nat) :
    ((projDays txB sb today endDate days bal).1).get? i
      = (days.get? i).map
          (fun d => (projOneDay txB sb today endDate
            (balThread txB sb today endDate bal (days.take i)) d).1) := by
  induction days generalizing bal i with
  | nil => simp [projDays]
  | cons d ds ih =>
    cases i with
    | zero => simp [projDays, balThread_nil]
    | succ n => simpa [projDays, balThread_cons] using ih (projOneDay txB sb today endDate bal d).2 n

theorem projDays_last_ending (days : List Int) (bal : ℚ) (p : DailyProjection)
    (hp : ((projDays txB sb today endDate days bal).1).getLast? = some p) :
    p.endingBalance = (projDays txB sb today endDate days bal).2 := by
  induction days generalizing bal with
  | nil => simp [projDays] at hp
  | cons d ds ih =>
    cases ds with
    | nil =>
      simp [projDays, List.getLast?] at hp ⊢
      rw [← hp, projOneDay_endingBalance, projOneDay_snd]
    | cons e es =>
      have hp' : ((projDays txB sb today endDate (e :: es)
          (projOneDay txB sb today endDate bal d).2).1).getLast? = some p := by
        rw [show (projDays txB sb today endDate (d :: e :: es) bal).1
            = (projOneDay txB sb today endDate bal d).1
              :: (projOneDay txB sb today endDate (projOneDay txB sb today endDate bal d).2 e).1
              :: (projDays txB sb today endDate es
                  (projOneDay txB sb today endDate
                    (projOneDay txB sb today endDate bal d).2 e).2).1 from rfl,
          List.getLast?_cons_cons] at hp
        exact hp
      have hres := ih (projOneDay txB sb today endDate bal d).2 hp'
      simpa [projDays] using hres

end WalkLemmas

section DayListLemmas

theorem projectionDays_length (s e : Int) :
    (projectionDays s e).length = (e - s + 1).toNat := by
  unfold projectionDays
  rw [List.length_map, List.length_range]

theorem projectionDays_getElem? (s e : Int) (i : Nat) :
    (projectionDays s e)[i]? = if (i : Int) ≤ e - s then some (s + (i : Int)) else none := by
  unfold projectionDays
  rw [List.getElem?_map]
  rcases lt_or_ge i (e - s + 1).toNat with h | h
  · rw [List.getElem?_eq_getElem (by simpa using h), List.getElem_range, if_pos (by omega)]
    rfl
  · rw [List.getElem?_eq_none (by simpa using h), if_neg (by omega)]
    rfl

theorem projectionDays_mem (s e d : Int) :
    d ∈ projectionDays s e ↔ s ≤ d ∧ d ≤ e := by
  unfold projectionDays
  rw [List.mem_map]
  constructor
  · rintro ⟨i, hi, rfl⟩
    rw [List.mem_range] at hi
    omega
  · rintro ⟨h1, h2⟩
    refine ⟨(d - s).toNat, ?_, ?_⟩
    · rw [List.mem_range]; omega
    · omega

theorem projectionDays_pairwise (s e : Int) :
    List.Pairwise (· < ·) (projectionDays s e) := by
  unfold projectionDays
  exact (List.pairwise_lt_range _).map _ (by omega)

end DayListLemmas

theorem computeProjection_periods (transactions : List Transaction) (sb : ℚ)
    (config : ScheduleConfig) (today : Int) :
    (computeProjection transactions sb config today).periods
      = (projDays (txIndex transactions (horizonEnd today config) today) sb today
          (horizonEnd today config)
          (projectionDays (windowStart transactions today) (horizonEnd today config)) sb).1 :=
  rfl

theorem computeProjection_finalBalance (transactions : List Transaction) (sb : ℚ)
    (config : ScheduleConfig) (today : Int) :
    (computeProjection transactions sb config today).finalBalance
      = (projDays (txIndex transactions (horizonEnd today config) today) sb today
          (horizonEnd today config)
          (projectionDays (windowStart transactions today) (horizonEnd today config)) sb).2 :=
  rfl

/-! ## Sortedness helpers -/

instance : IsTotal Transaction dateLe := ⟨fun a b => le_total a.date b.date⟩

instance : IsTrans Transaction dateLe := ⟨fun _ _ _ hab hbc => le_trans hab hbc⟩

theorem insertionSort_mem_iff (l : List Transaction) (t : Transaction) :
    t ∈ List.insertionSort dateLe l ↔ t ∈ l :=
  (List.perm_insertionSort dateLe l).mem_iff

theorem sorted_head_min (l : List Transaction) (hs : List.Sorted dateLe l)
    (u : Transaction) (hu : l.head? = some u) (t : Transaction) (ht : t ∈ l) :
    u.date ≤ t.date := by
  cases l with
  | nil => simp at hu
  | cons a rest =>
    simp only [List.head?_cons, Option.some.injEq] at hu
    subst hu
    rcases List.mem_cons.mp ht with rfl | hmem
    · exact le_refl _
    · exact List.rel_of_sorted_cons hs t hmem

theorem sorted_getLast_max (l : List Transaction) (hs : List.Sorted dateLe l)
    (u : Transaction) (hu : l.getLast? = some u) (t : Transaction) (ht : t ∈ l) :
    t.date ≤ u.date := by
  induction l with
  | nil => simp at hu
  | cons a rest ih =>
    cases rest with
    | nil =>
      simp at hu ht
      subst hu; subst ht; exact le_refl _
    | cons b rest2 =>
      rw [List.getLast?_cons_cons] at hu
      rcases List.mem_cons.mp ht with rfl | hmem
      · have hb : u ∈ b :: rest2 := by
          have := List.mem_of_mem_getLast? hu
          exact this
        exact le_trans (List.rel_of_sorted_cons hs u hb) (le_refl _)
      · exact ih (List.Sorted.of_cons hs) hu hmem

/-- The head of the date-sorted list is a minimal-date element. -/
theorem insertionSort_head_le (l : List Transaction) (u : Transaction)
    (hu : (List.insertionSort dateLe l).head? = some u) (t : Transaction) (ht : t ∈ l) :
    u.date ≤ t.date :=
  sorted_head_min _ (List.sorted_insertionSort dateLe l) u hu t
    ((insertionSort_mem_iff l t).mpr ht)

/-- The last element of the date-sorted list is a maximal-date element. -/
theorem insertionSort_getLast_ge (l : List Transaction) (u : Transaction)
    (hu : (List.insertionSort dateLe l).getLast? = some u) (t : Transaction) (ht : t ∈ l) :
    t.date ≤ u.date :=
  sorted_getLast_max _ (List.sorted_insertionSort dateLe l) u hu t
    ((insertionSort_mem_iff l t).mpr ht)

/-! ## Index characterization of `computeProjection` -/

theorem computeProjection_length (transactions : List Transaction) (sb : ℚ)
    (config : ScheduleConfig) (today : Int) :
    (computeProjection transactions sb config today).periods.length
      = (horizonEnd today config - windowStart transactions today + 1).toNat := by
  rw [computeProjection_periods, projDays_length, projectionDays_length]

/-- The record at index `i` is the one-day projection of day
`windowStart + i`, fed with the balance threaded through the previous days. -/
theorem computeProjection_get (transactions : List Transaction) (sb : ℚ)
    (config : ScheduleConfig) (today : Int) (i : Nat)
    (hi : i < (computeProjection transactions sb config today).periods.length) :
    (computeProjection transactions sb config today).periods.get ⟨i, hi⟩
      = (projOneDay (txIndex transactions (horizonEnd today config) today) sb today
          (horizonEnd today config)
          (balThread (txIndex transactions (horizonEnd today config) today) sb today
            (horizonEnd today config) sb
            ((projectionDays (windowStart transactions today)
              (horizonEnd today config)).take i))
          (windowStart transactions today + (i : Int))).1 := by
  have hlen := computeProjection_length transactions sb config today
  have h1 : (computeProjection transactions sb config today).periods.get? i
      = some ((computeProjection transactions sb config today).periods.get ⟨i, hi⟩) :=
    List.get?_eq_get hi
  have h2 : (computeProjection transactions sb config today).periods.get? i
      = ((projectionDays (windowStart transactions today) (horizonEnd today config)).get?
          i).map
        (fun d => (projOneDay (txIndex transactions (horizonEnd today config) today) sb
          today (horizonEnd today config)
          (balThread (txIndex transactions (horizonEnd today config) today) sb today
            (horizonEnd today config) sb
            ((projectionDays (windowStart transactions today)
              (horizonEnd today config)).take i)) d).1) :=
    projDays_get? _ _ _ _ _ _ i
  have hd : (projectionDays (windowStart transactions today)
      (horizonEnd today config)).get? i
      = some (windowStart transactions today + (i : Int)) := by
    rw [List.get?_eq_getElem?, projectionDays_getElem?, if_pos (by omega)]
  rw [hd] at h2
  exact Option.some.inj (h1.symm.trans h2)

theorem balThread_take_succ (txB : Int → List Transaction) (sb : ℚ) (today endDate : Int)
    (days : List Int) (bal : ℚ) (i : Nat) (hi : i < days.length) :
    balThread txB sb today endDate bal (days.take (i + 1))
      = (projOneDay txB sb today endDate (balThread txB sb today endDate bal (days.take i))
          (days.get ⟨i, hi⟩)).2 := by
  rw [List.take_succ, List.getElem?_eq_getElem hi]
  unfold balThread
  rw [List.foldl_append]
  rfl

/-! ## Claim C1 -/

/-- Claim C1: in the daily projection whose date equals today, the starting
and ending balance both equal the supplied starting balance, regardless of
transactions dated today; that day still reports the actual income/expense
sums of its transaction bucket. -/
theorem claim1_today_invariant (transactions : List Transaction) (sb : ℚ)
    (config : ScheduleConfig) (today : Int) (i : Nat)
    (hi : i < (computeProjection transactions sb config today).periods.length)
    (hd : ((computeProjection transactions sb config today).periods.get ⟨i, hi⟩).date
      = today) :
    ((computeProjection transactions sb config today).periods.get ⟨i, hi⟩).startingBalance
        = sb
    ∧ ((computeProjection transactions sb config today).periods.get ⟨i, hi⟩).endingBalance
        = sb
    ∧ ((computeProjection transactions sb config today).periods.get ⟨i, hi⟩).transactions
        = txIndex transactions (horizonEnd today config) today today
    ∧ ((computeProjection transactions sb config today).periods.get ⟨i, hi⟩).totalIncome
        = actualIncomeOf (txIndex transactions (horizonEnd today config) today today)
    ∧ ((computeProjection transactions sb config today).periods.get ⟨i, hi⟩).totalExpenses
        = actualExpensesOf (txIndex transactions (horizonEnd today config) today today) := by
  rw [computeProjection_get transactions sb config today i hi] at hd ⊢
  rw [projOneDay_date] at hd
  rw [hd]
  refine ⟨?_, ?_, ?_, ?_, ?_⟩
  · rw [projOneDay_startingBalance, if_pos rfl]
  · rw [projOneDay_endingBalance]
    unfold dayEndingBalance
    simp
  · rw [projOneDay_transactions]
  · rw [projOneDay_totalIncome]
  · rw [projOneDay_totalExpenses]

set_option maxRecDepth 100000 in
/-- Closed witness for claim C1. -/
theorem claim1_today_invariant_witness :
    ((computeProjection [] 100 ⟨2, 14, 2000⟩ 0).periods.get ⟨92, by decide⟩).startingBalance
        = 100
    ∧ ((computeProjection [] 100 ⟨2, 14, 2000⟩ 0).periods.get ⟨92, by decide⟩).endingBalance
        = 100 := by
  have h := claim1_today_invariant [] 100 ⟨2, 14, 2000⟩ 0 92 (by decide) (by decide)
  exact ⟨h.1, h.2.1⟩

/-! ## Claim C2 -/

/-- Claim C2: the returned periods carry exactly one projection per calendar
day from `windowStart` (which is at most today minus 3 months and at most
every transaction date, and defaults to the 3-month-back date for an empty
input) through `horizonEnd`, in strictly ascending date order with no gaps
or duplicates. -/
theorem claim2_window_coverage (transactions : List Transaction) (sb : ℚ)
    (config : ScheduleConfig) (today : Int) :
    ((computeProjection transactions sb config today).periods.map (fun p => p.date)
        = projectionDays (windowStart transactions today) (horizonEnd today config))
    ∧ List.Pairwise (· < ·)
        ((computeProjection transactions sb config today).periods.map (fun p => p.date))
    ∧ (∀ d : Int,
        d ∈ (computeProjection transactions sb config today).periods.map (fun p => p.date)
          ↔ windowStart transactions today ≤ d ∧ d ≤ horizonEnd today config)
    ∧ windowStart transactions today ≤ addMonthsE today (-3)
    ∧ (∀ t, t ∈ transactions → windowStart transactions today ≤ t.date)
    ∧ (transactions = [] →
        windowStart transactions today = min (addMonthsE today (-3)) today) := by
  refine ⟨?_, ?_, ?_, ?_, ?_, ?_⟩
  · rw [computeProjection_periods, projDays_map_date]
  · rw [computeProjection_periods, projDays_map_date]
    exact projectionDays_pairwise _ _
  · intro d
    rw [computeProjection_periods, projDays_map_date]
    exact projectionDays_mem _ _ d
  · simp only [windowStart]
    cases h : (List.insertionSort dateLe transactions).head? with
    | none => exact min_le_left _ _
    | some u => exact min_le_left _ _
  · intro t ht
    simp only [windowStart]
    cases h : (List.insertionSort dateLe transactions).head? with
    | none =>
      exfalso
      cases hl : List.insertionSort dateLe transactions with
      | nil =>
        have hperm := List.perm_insertionSort dateLe transactions
        rw [hl] at hperm
        have hz : transactions = [] := hperm.symm.eq_nil
        rw [hz] at ht
        simp at ht
      | cons a l2 =>
        rw [hl] at h
        simp at h
    | some u =>
      exact le_trans (min_le_right _ _) (insertionSort_head_le transactions u h t ht)
  · intro h
    rw [h]
    rfl

/-- Closed witness for claim C2 (instantiating the membership conjunct). -/
theorem claim2_window_coverage_witness :
    (0 : Int) ∈ (computeProjection [] 100 ⟨2, 14, 2000⟩ 0).periods.map (fun p => p.date) := by
  have h := (claim2_window_coverage [] 100 ⟨2, 14, 2000⟩ 0).2.2.1 0
  exact h.mpr (by constructor <;> decide)

/-! ## Claim C3 -/

/-- Claim C3: for a day strictly after today, the ending balance is that
day's starting balance plus its total income minus its total expenses, the
next day's starting balance is the current day's ending balance, and the
final balance returned is the last day's ending balance. -/
theorem claim3_balance_continuity (transactions : List Transaction) (sb : ℚ)
    (config : ScheduleConfig) (today : Int) (i : Nat)
    (hi : i + 1 < (computeProjection transactions sb config today).periods.length)
    (hgt : today < ((computeProjection transactions sb config today).periods.get
      ⟨i, Nat.lt_of_succ_lt hi⟩).date) :
    ((computeProjection transactions sb config today).periods.get
        ⟨i, Nat.lt_of_succ_lt hi⟩).endingBalance
      = ((computeProjection transactions sb config today).periods.get
          ⟨i, Nat.lt_of_succ_lt hi⟩).startingBalance
        + ((computeProjection transactions sb config today).periods.get
            ⟨i, Nat.lt_of_succ_lt hi⟩).totalIncome
        - ((computeProjection transactions sb config today).periods.get
            ⟨i, Nat.lt_of_succ_lt hi⟩).totalExpenses
    ∧ ((computeProjection transactions sb config today).periods.get
        ⟨i + 1, hi⟩).startingBalance
      = ((computeProjection transactions sb config today).periods.get
          ⟨i, Nat.lt_of_succ_lt hi⟩).endingBalance
    ∧ ∀ h2 : (computeProjection transactions sb config today).periods ≠ [],
        (computeProjection transactions sb config today).finalBalance
          = ((computeProjection transactions sb config today).periods.getLast
              h2).endingBalance := by
  have hlen := computeProjection_length transactions sb config today
  have hget := computeProjection_get transactions sb config today i (Nat.lt_of_succ_lt hi)
  have hget1 := computeProjection_get transactions sb config today (i + 1) hi
  rw [hget] at hgt
  rw [projOneDay_date] at hgt
  refine ⟨?_, ?_, ?_⟩
  · rw [hget, projOneDay_endingBalance, projOneDay_startingBalance, projOneDay_totalIncome,
      projOneDay_totalExpenses]
    unfold dayEndingBalance
    have hne : ¬ (windowStart transactions today + (i : Int) = today) := by omega
    rw [if_pos (⟨by omega, hne⟩ : ¬ (windowStart transactions today + (i : Int) < today)
      ∧ ¬ (windowStart transactions today + (i : Int) = today))]
    simp only [if_neg hne]
  · rw [hget, hget1, projOneDay_startingBalance, projOneDay_endingBalance]
    rw [if_neg (by push_cast; omega : ¬ (windowStart transactions today
      + ((i + 1 : Nat) : Int) = today))]
    have hdays : i < (projectionDays (windowStart transactions today)
        (horizonEnd today config)).length := by
      rw [projectionDays_length]; omega
    rw [balThread_take_succ _ _ _ _ _ _ i hdays]
    have hdval : (projectionDays (windowStart transactions today)
        (horizonEnd today config)).get ⟨i, hdays⟩ = windowStart transactions today
          + (i : Int) := by
      have h1 : (projectionDays (windowStart transactions today)
          (horizonEnd today config))[i]?
          = some (windowStart transactions today + (i : Int)) := by
        rw [projectionDays_getElem?, if_pos (by omega)]
      rw [List.getElem?_eq_getElem hdays] at h1
      have h2 := Option.some.inj h1
      rw [List.get_eq_getElem]
      exact h2
    rw [hdval, projOneDay_snd]
  · intro h2
    have hlast : (computeProjection transactions sb config today).periods.getLast? =
        some ((computeProjection transactions sb config today).periods.getLast h2) :=
      List.getLast?_eq_getLast _ h2
    have hfin := projDays_last_ending (txIndex transactions (horizonEnd today config) today)
      sb today (horizonEnd today config)
      (projectionDays (windowStart transactions today) (horizonEnd today config)) sb
      ((computeProjection transactions sb config today).periods.getLast h2) hlast
    rw [computeProjection_finalBalance]
    exact hfin.symm

set_option maxRecDepth 100000 in
/-- Closed witness for claim C3. -/
theorem claim3_balance_continuity_witness :
    ((computeProjection [] 100 ⟨2, 14, 2000⟩ 0).periods.get ⟨101, by decide⟩).startingBalance
      = ((computeProjection [] 100 ⟨2, 14, 2000⟩ 0).periods.get
          ⟨100, by decide⟩).endingBalance := by
  have h := claim3_balance_continuity [] 100 ⟨2, 14, 2000⟩ 0 100 (by decide) (by decide)
  exact h.2.1

/-! ## Claim C8 -/

/-- Claim C8: for every non-historical day, safe-to-spend is
`max(0, safeBalance * 0.8)` and safe-to-save is `max(0, safeBalance * 0.2)`,
where `safeBalance` is the day's ending balance minus the upcoming expenses
of its look-ahead window; both are nonnegative on every day and zero on
every historical day. -/
theorem claim8_safe_spend_split (transactions : List Transaction) (sb : ℚ)
    (config : ScheduleConfig) (today : Int) (i : Nat)
    (hi : i < (computeProjection transactions sb config today).periods.length) :
    (0 ≤ ((computeProjection transactions sb config today).periods.get
      ⟨i, hi⟩).safeToSpend)
    ∧ (0 ≤ ((computeProjection transactions sb config today).periods.get
        ⟨i, hi⟩).safeToSave)
    ∧ (((computeProjection transactions sb config today).periods.get
          ⟨i, hi⟩).isHistorical = true →
        ((computeProjection transactions sb config today).periods.get
          ⟨i, hi⟩).safeToSpend = 0
        ∧ ((computeProjection transactions sb config today).periods.get
            ⟨i, hi⟩).safeToSave = 0)
    ∧ (((computeProjection transactions sb config today).periods.get
          ⟨i, hi⟩).isHistorical = false →
        ((computeProjection transactions sb config today).periods.get
            ⟨i, hi⟩).safeToSpend
          = max 0 ((((computeProjection transactions sb config today).periods.get
                ⟨i, hi⟩).endingBalance
              - upcomingExpensesOf (txIndex transactions (horizonEnd today config) today)
                  (((computeProjection transactions sb config today).periods.get
                    ⟨i, hi⟩).date)
                  (((computeProjection transactions sb config today).periods.get
                    ⟨i, hi⟩).daysUntilNextIncome)) * (4 / 5))
        ∧ ((computeProjection transactions sb config today).periods.get
            ⟨i, hi⟩).safeToSave
          = max 0 ((((computeProjection transactions sb config today).periods.get
                ⟨i, hi⟩).endingBalance
              - upcomingExpensesOf (txIndex transactions (horizonEnd today config) today)
                  (((computeProjection transactions sb config today).periods.get
                    ⟨i, hi⟩).date)
                  (((computeProjection transactions sb config today).periods.get
                    ⟨i, hi⟩).daysUntilNextIncome)) * (1 / 5))) := by
  rw [computeProjection_get transactions sb config today i hi]
  rw [projOneDay_safeToSpend, projOneDay_safeToSave, projOneDay_isHistorical,
    projOneDay_endingBalance, projOneDay_date, projOneDay_dun]
  by_cases hh : windowStart transactions today + (i : Int) < today
  · rw [if_pos hh, if_pos hh]
    refine ⟨le_refl 0, le_refl 0, fun _ => ⟨rfl, rfl⟩, fun hfalse => ?_⟩
    rw [decide_eq_false_iff_not] at hfalse
    exact absurd hh hfalse
  · rw [if_neg hh, if_neg hh]
    refine ⟨le_max_left 0 _, le_max_left 0 _, fun htrue => ?_, fun _ => ⟨rfl, rfl⟩⟩
    rw [decide_eq_true_eq] at htrue
    exact absurd htrue hh

set_option maxRecDepth 100000 in
/-- Closed witness for claim C8. -/
theorem claim8_safe_spend_split_witness :
    0 ≤ ((computeProjection [] 100 ⟨2, 14, 2000⟩ 0).periods.get ⟨92, by decide⟩).safeToSpend :=
  (claim8_safe_spend_split [] 100 ⟨2, 14, 2000⟩ 0 92 (by decide)).1

/-! ## Claim C9 -/

/-- Claim C9: `internal_transfer` transactions are classified by the sign of
their amount — positive ones count as income, negative ones as expenses —
while bill/expense and paycheck/income transactions are classified by type
using the absolute amount; on a future day the balance therefore moves by
the signed amount for a transfer, down for bills/expenses and up for
paychecks/income. -/
theorem claim9_internal_transfer_sign :
    (∀ t : Transaction,
      (isIncomeTx t = true ↔ (t.type = .paycheck ∨ t.type = .income
        ∨ (t.type = .internal_transfer ∧ 0 < t.amount)))
      ∧ (isExpenseTx t = true ↔ (t.type = .bill ∨ t.type = .expense
        ∨ (t.type = .internal_transfer ∧ t.amount < 0))))
    ∧ (∀ t : Transaction, t.type = .internal_transfer →
        (0 < t.amount → actualIncomeOf [t] = t.amount ∧ actualExpensesOf [t] = 0)
        ∧ (t.amount < 0 → actualIncomeOf [t] = 0 ∧ actualExpensesOf [t] = -t.amount))
    ∧ (∀ t : Transaction, (t.type = .bill ∨ t.type = .expense) →
        actualIncomeOf [t] = 0 ∧ actualExpensesOf [t] = |t.amount|)
    ∧ (∀ t : Transaction, (t.type = .paycheck ∨ t.type = .income) →
        actualIncomeOf [t] = |t.amount| ∧ actualExpensesOf [t] = 0)
    ∧ (∀ (txB : Int → List Transaction) (sb bal : ℚ) (today day : Int), today < day →
        dayEndingBalance txB sb today bal day
          = bal + actualIncomeOf (txB day) - actualExpensesOf (txB day)) := by
  refine ⟨?_, ?_, ?_, ?_, ?_⟩
  · intro t
    unfold isIncomeTx isExpenseTx
    constructor <;> constructor <;> intro h <;>
      simp only [Bool.or_eq_true, Bool.and_eq_true, decide_eq_true_eq] at h ⊢ <;>
      tauto
  · intro t hty
    constructor <;> intro hs <;>
      unfold actualIncomeOf actualExpensesOf isIncomeTx isExpenseTx <;>
      rcases t with ⟨id, name, amount, date, ty, rec, sch⟩ <;>
      simp only at hty hs <;> subst hty <;>
      simp [List.filter, hs, not_lt_of_gt hs, abs_of_pos, abs_of_neg, le_of_lt]
  · intro t hty
    unfold actualIncomeOf actualExpensesOf isIncomeTx isExpenseTx
    rcases t with ⟨id, name, amount, date, ty, rec, sch⟩
    rcases hty with h | h <;> simp only at h <;> subst h <;> simp [List.filter]
  · intro t hty
    unfold actualIncomeOf actualExpensesOf isIncomeTx isExpenseTx
    rcases t with ⟨id, name, amount, date, ty, rec, sch⟩
    rcases hty with h | h <;> simp only at h <;> subst h <;> simp [List.filter]
  · intro txB sb bal today day hlt
    unfold dayEndingBalance
    rw [if_pos ⟨by omega, by omega⟩]
    rw [if_neg (by omega : ¬ (day = today))]
    rw [if_neg (by omega : ¬ (day = today))]

/-- Closed witness for claim C9. -/
theorem claim9_internal_transfer_sign_witness :
    actualIncomeOf [⟨"t", "t", 5, 0, .internal_transfer, false, none⟩] = 5
    ∧ actualExpensesOf [⟨"t", "t", 5, 0, .internal_transfer, false, none⟩] = 0 := by
  have h := claim9_internal_transfer_sign
  exact (h.2.1 ⟨"t", "t", 5, 0, .internal_transfer, false, none⟩ rfl).1 (by norm_num)

/-! ## Claim C7: income-scan loop lemmas -/

theorem daysUntilGo_le (txB : Int → List Transaction) (endDate : Int) :
    ∀ (fuel : Nat) (fd : Int) (c : Nat), daysUntilGo txB endDate fd c fuel ≤ c + fuel := by
  intro fuel
  induction fuel with
  | zero => intro fd c; unfold daysUntilGo; omega
  | succ n ih =>
    intro fd c
    unfold daysUntilGo
    split_ifs
    · omega
    · omega
    · exact le_trans (ih (fd + 1) (c + 1)) (by omega)
    · omega

theorem daysUntilGo_found (txB : Int → List Transaction) (endDate : Int) :
    ∀ (fuel : Nat) (fd : Int) (c k : Nat), 1 ≤ k → k ≤ fuel → c + k ≤ 31 →
      fd + (k : Int) - 1 ≤ endDate →
      hasIncomeTx (txB (fd + (k : Int))) = true →
      (∀ j : Nat, 1 ≤ j → j < k → hasIncomeTx (txB (fd + (j : Int))) = false) →
      daysUntilGo txB endDate fd c fuel = c + k := by
  intro fuel
  induction fuel with
  | zero => intro fd c k hk1 hkf; omega
  | succ n ih =>
    intro fd c k hk1 hkf hck hguard hinc hno
    unfold daysUntilGo
    rw [if_pos (by omega : fd ≤ endDate)]
    rcases eq_or_lt_of_le hk1 with h1 | h2
    · rw [show fd + ((k : Nat) : Int) = fd + 1 by omega] at hinc
      rw [hinc]
      simp
      omega
    · have hfirst : hasIncomeTx (txB (fd + ((1 : Nat) : Int))) = false :=
        hno 1 (le_refl 1) (by omega)
      rw [show fd + ((1 : Nat) : Int) = fd + 1 by omega] at hfirst
      rw [hfirst]
      simp only [Bool.false_eq_true, if_false]
      rw [if_neg (by omega : ¬ (c + 1 > 30))]
      have hcast : fd + 1 + ((k - 1 : Nat) : Int) = fd + (k : Int) := by
        push_cast [Nat.cast_sub (by omega : 1 ≤ k)]
        omega
      have hinc2 : hasIncomeTx (txB (fd + 1 + ((k - 1 : Nat) : Int))) = true := by
        rw [hcast]; exact hinc
      have hno2 : ∀ j : Nat, 1 ≤ j → j < k - 1 →
          hasIncomeTx (txB (fd + 1 + (j : Int))) = false := by
        intro j hj1 hjk
        have hstep := hno (j + 1) (by omega) (by omega)
        have hc2 : fd + ((j + 1 : Nat) : Int) = fd + 1 + (j : Int) := by push_cast; omega
        rw [hc2] at hstep
        exact hstep
      have hrec := ih (fd + 1) (c + 1) (k - 1) (by omega) (by omega) (by omega)
        (by rw [hcast]; omega) hinc2 hno2
      rw [hrec]
      omega

theorem daysUntilGo_none (txB : Int → List Transaction) (endDate : Int) :
    ∀ (fuel : Nat) (fd : Int) (c : Nat), c + fuel = 31 →
      (∀ j : Nat, 1 ≤ j → j ≤ fuel → hasIncomeTx (txB (fd + (j : Int))) = false) →
      fd + (fuel : Int) - 1 ≤ endDate →
      daysUntilGo txB endDate fd c fuel = 31 := by
  intro fuel
  induction fuel with
  | zero => intro fd c hc _ _; unfold daysUntilGo; omega
  | succ n ih =>
    intro fd c hc hno hguard
    unfold daysUntilGo
    rw [if_pos (by push_cast at hguard; omega : fd ≤ endDate)]
    have hfirst : hasIncomeTx (txB (fd + ((1 : Nat) : Int))) = false :=
      hno 1 (le_refl 1) (by omega)
    rw [show fd + ((1 : Nat) : Int) = fd + 1 by omega] at hfirst
    rw [hfirst]
    simp only [Bool.false_eq_true, if_false]
    rcases Nat.eq_zero_or_pos n with hn0 | hnpos
    · subst hn0
      rw [if_pos (by omega : c + 1 > 30)]
      omega
    · rw [if_neg (by omega : ¬ (c + 1 > 30))]
      have hno2 : ∀ j : Nat, 1 ≤ j → j ≤ n →
          hasIncomeTx (txB (fd + 1 + (j : Int))) = false := by
        intro j hj1 hjn
        have hstep := hno (j + 1) (by omega) (by omega)
        have hc2 : fd + ((j + 1 : Nat) : Int) = fd + 1 + (j : Int) := by push_cast; omega
        rw [hc2] at hstep
        exact hstep
      exact ih (fd + 1) (c + 1) (by omega) hno2 (by push_cast at hguard ⊢; omega)

set_option maxRecDepth 100000 in
/-- Counterexample to claim C7 as stated: with no transactions at all, the
projection day equal to today is not historical and reports
`daysUntilNextIncome = 31`, which exceeds the claimed cap of 30. -/
theorem claim7_counterexample :
    ((computeProjection [] 100 ⟨2, 14, 2000⟩ 0).periods.get ⟨92,
        by decide⟩).isHistorical = false
    ∧ ¬ (((computeProjection [] 100 ⟨2, 14, 2000⟩ 0).periods.get ⟨92,
        by decide⟩).daysUntilNextIncome ≤ 30) := by
  constructor <;> decide

/-- Claim C7 amended: the forward income scan stops after at most 31 counted
days (not 30): the reported value equals the offset of the first income day
when one occurs within 31 days inside the horizon, and equals 31 when no
income day occurs within 31 days and the horizon allows the full scan. -/
theorem claim7_days_until_income (transactions : List Transaction) (sb : ℚ)
    (config : ScheduleConfig) (today : Int) (i : Nat)
    (hi : i < (computeProjection transactions sb config today).periods.length) :
    ((computeProjection transactions sb config today).periods.get
      ⟨i, hi⟩).daysUntilNextIncome ≤ 31
    ∧ (∀ k : Nat,
        ((computeProjection transactions sb config today).periods.get
          ⟨i, hi⟩).isHistorical = false →
        1 ≤ k → k ≤ 31 →
        hasIncomeTx (txIndex transactions (horizonEnd today config) today
          (((computeProjection transactions sb config today).periods.get
            ⟨i, hi⟩).date + (k : Int))) = true →
        (∀ j : Nat, 1 ≤ j → j < k →
          hasIncomeTx (txIndex transactions (horizonEnd today config) today
            (((computeProjection transactions sb config today).periods.get
              ⟨i, hi⟩).date + (j : Int))) = false) →
        ((computeProjection transactions sb config today).periods.get
          ⟨i, hi⟩).date + (k : Int) - 1 ≤ horizonEnd today config →
        ((computeProjection transactions sb config today).periods.get
          ⟨i, hi⟩).daysUntilNextIncome = k)
    ∧ (((computeProjection transactions sb config today).periods.get
          ⟨i, hi⟩).isHistorical = false →
        (∀ j : Nat, 1 ≤ j → j ≤ 31 →
          hasIncomeTx (txIndex transactions (horizonEnd today config) today
            (((computeProjection transactions sb config today).periods.get
              ⟨i, hi⟩).date + (j : Int))) = false) →
        ((computeProjection transactions sb config today).periods.get
          ⟨i, hi⟩).date + 31 - 1 ≤ horizonEnd today config →
        ((computeProjection transactions sb config today).periods.get
          ⟨i, hi⟩).daysUntilNextIncome = 31) := by
  rw [computeProjection_get transactions sb config today i hi]
  rw [projOneDay_dun, projOneDay_isHistorical, projOneDay_date]
  unfold dayDun
  refine ⟨?_, ?_, ?_⟩
  · split_ifs with hh
    · omega
    · exact le_trans (daysUntilGo_le _ _ 31 _ 0) (by omega)
  · intro k hhist hk1 hk31 hinc hno hguard
    rw [decide_eq_false_iff_not] at hhist
    rw [if_neg hhist]
    unfold daysUntilNextIncomeOf
    have := daysUntilGo_found (txIndex transactions (horizonEnd today config) today)
      (horizonEnd today config) 31 (windowStart transactions today + (i : Int)) 0 k hk1
      (by omega) (by omega) hguard hinc hno
    omega
  · intro hhist hno hguard
    rw [decide_eq_false_iff_not] at hhist
    rw [if_neg hhist]
    unfold daysUntilNextIncomeOf
    exact daysUntilGo_none (txIndex transactions (horizonEnd today config) today)
      (horizonEnd today config) 31 (windowStart transactions today + (i : Int)) 0 rfl hno
      (by push_cast at hguard ⊢; omega)

set_option maxRecDepth 100000 in
/-- Closed witness for the amended claim C7. -/
theorem claim7_days_until_income_witness :
    ((computeProjection [] 100 ⟨2, 14, 2000⟩ 0).periods.get ⟨92,
      by decide⟩).daysUntilNextIncome ≤ 31 :=
  (claim7_days_until_income [] 100 ⟨2, 14, 2000⟩ 0 92 (by decide)).1

/-! ## Generation-loop bounds (claims C5, C6, C10, C4) -/

theorem mkFutureTx_date (base : Transaction) (count : Nat) (date : Int) (freq : Freq) :
    (mkFutureTx base count date freq).date = date := rfl

theorem biweeklyGo_length (base : Transaction) (intervalDays endDate : Int) :
    ∀ (fuel : Nat) (nextDate : Int) (count : Nat),
      (biweeklyGo base intervalDays endDate nextDate count fuel).length ≤ fuel := by
  intro fuel
  induction fuel with
  | zero => intro nd c; simp [biweeklyGo]
  | succ n ih =>
    intro nd c
    unfold biweeklyGo
    split_ifs
    · simpa using Nat.succ_le_succ (ih (nd + intervalDays) (c + 1))
    · simp

theorem biweeklyGo_dates (base : Transaction) (intervalDays endDate : Int) :
    ∀ (fuel : Nat) (nextDate : Int) (count : Nat) (t : Transaction),
      t ∈ biweeklyGo base intervalDays endDate nextDate count fuel → t.date ≤ endDate := by
  intro fuel
  induction fuel with
  | zero => intro nd c t ht; simp [biweeklyGo] at ht
  | succ n ih =>
    intro nd c t ht
    unfold biweeklyGo at ht
    split_ifs at ht with hc
    · rcases List.mem_cons.mp ht with rfl | hmem
      · rw [mkFutureTx_date]; exact hc.1
      · exact ih (nd + intervalDays) (c + 1) t hmem
    · simp at ht

theorem monthlyGo_length (base : Transaction) (dayOfMonth endDate : Int) :
    ∀ (fuel : Nat) (cy cm : Int) (count : Nat),
      (monthlyGo base dayOfMonth endDate cy cm count fuel).length ≤ fuel := by
  intro fuel
  induction fuel with
  | zero => intro cy cm c; simp [monthlyGo]
  | succ n ih =>
    intro cy cm c
    unfold monthlyGo
    dsimp only
    split_ifs
    · simp
    · simpa using Nat.succ_le_succ (ih (nextMonth cy cm).1 (nextMonth cy cm).2 (c + 1))

theorem monthlyGo_dates (base : Transaction) (dayOfMonth endDate : Int) :
    ∀ (fuel : Nat) (cy cm : Int) (count : Nat) (t : Transaction),
      t ∈ monthlyGo base dayOfMonth endDate cy cm count fuel → t.date ≤ endDate := by
  intro fuel
  induction fuel with
  | zero => intro cy cm c t ht; simp [monthlyGo] at ht
  | succ n ih =>
    intro cy cm c t ht
    unfold monthlyGo at ht
    dsimp only at ht
    split_ifs at ht with hc
    · simp at ht
    · rcases List.mem_cons.mp ht with rfl | hmem
      · rw [mkFutureTx_date]; omega
      · exact ih (nextMonth cy cm).1 (nextMonth cy cm).2 (c + 1) t hmem

theorem biweeklyGo_succ (base : Transaction) (intervalDays endDate nextDate : Int)
    (count fuel : Nat) :
    biweeklyGo base intervalDays endDate nextDate count (fuel + 1)
      = if nextDate ≤ endDate ∧ count < 50 then
          mkFutureTx base count nextDate (freqOfInterval intervalDays)
            :: biweeklyGo base intervalDays endDate (nextDate + intervalDays) (count + 1) fuel
        else [] := rfl

theorem monthlyGo_succ (base : Transaction) (dayOfMonth endDate cy cm : Int)
    (count fuel : Nat) :
    monthlyGo base dayOfMonth endDate cy cm count (fuel + 1)
      = if monthOccurrence cy cm dayOfMonth > endDate then []
        else mkFutureTx base count (monthOccurrence cy cm dayOfMonth) .monthly
          :: monthlyGo base dayOfMonth endDate (nextMonth cy cm).1 (nextMonth cy cm).2
              (count + 1) fuel := rfl

theorem genForGroupCore_length_le (today endDate : Int) (group : List Transaction)
    (lastTx : Transaction) :
    (genForGroupCore today endDate group lastTx).length ≤ 50 := by
  unfold genForGroupCore
  dsimp only
  split_ifs
  · exact biweeklyGo_length _ _ _ 50 _ 0
  · exact monthlyGo_length _ _ _ 50 _ _ 0
  · simp

theorem genForGroup_length_le (today endDate : Int) (group : List Transaction) :
    (genForGroup today endDate group).length ≤ 50 := by
  unfold genForGroup
  split_ifs with h1
  · simp
  · cases hl : (List.insertionSort dateLe group).getLast? with
    | none => exact Nat.zero_le _
    | some lastTx => exact genForGroupCore_length_le today endDate group lastTx

theorem genForGroupCore_dates (today endDate : Int) (group : List Transaction)
    (lastTx : Transaction) (t : Transaction)
    (ht : t ∈ genForGroupCore today endDate group lastTx) : t.date ≤ endDate := by
  unfold genForGroupCore at ht
  dsimp only at ht
  split_ifs at ht
  · exact biweeklyGo_dates _ _ _ 50 _ 0 t ht
  · exact monthlyGo_dates _ _ _ 50 _ _ 0 t ht
  · simp at ht

theorem genForGroup_dates (today endDate : Int) (group : List Transaction)
    (t : Transaction) (ht : t ∈ genForGroup today endDate group) : t.date ≤ endDate := by
  unfold genForGroup at ht
  split_ifs at ht with h1
  · simp at ht
  · cases hl : (List.insertionSort dateLe group).getLast? with
    | none =>
      rw [hl] at ht
      exact absurd ht (List.not_mem_nil t)
    | some lastTx =>
      rw [hl] at ht
      exact genForGroupCore_dates today endDate group lastTx t ht

/-! ## Claim C5 -/

/-- Claim C5: recurrence generation produces at most 50 synthetic instances
per group, no synthetic instance is dated past the horizon end, and the
bi-weekly loop respects the 50-iteration cap for an arbitrary (even zero or
negative) interval. -/
theorem claim5_recurrence_cap (today endDate : Int) (transactions : List Transaction) :
    (∀ group : List Transaction, (genForGroup today endDate group).length ≤ 50)
    ∧ (∀ t : Transaction, t ∈ generateRecurringTransactions transactions endDate today →
        t.date ≤ endDate)
    ∧ (∀ (base : Transaction) (intervalDays nextDate : Int) (count : Nat),
        (biweeklyGo base intervalDays endDate nextDate count 50).length ≤ 50) := by
  refine ⟨fun group => genForGroup_length_le today endDate group, ?_, ?_⟩
  · intro t ht
    unfold generateRecurringTransactions at ht
    rcases List.mem_flatMap.mp ht with ⟨k, _, hmem⟩
    exact genForGroup_dates today endDate _ t hmem
  · intro base intervalDays nextDate count
    exact biweeklyGo_length base intervalDays endDate 50 nextDate count

/-- Closed witness for claim C5. -/
theorem claim5_recurrence_cap_witness :
    (genForGroup 20139 20178 [⟨"gym", "gym", 50, 20096, .bill, false, none⟩]).length ≤ 50 :=
  (claim5_recurrence_cap 20139 20178 []).1 [⟨"gym", "gym", 50, 20096, .bill, false, none⟩]

/-! ## Claim C6 -/

theorem dedupKeys_subset : ∀ (l : List (String × TxType)) (k : String × TxType),
    k ∈ dedupKeys l → k ∈ l := by
  intro l
  induction l with
  | nil => intro k hk; simp [dedupKeys] at hk
  | cons a rest ih =>
    intro k hk
    unfold dedupKeys at hk
    rcases List.mem_cons.mp hk with rfl | hmem
    · exact List.mem_cons_self _ _
    · exact List.mem_cons_of_mem a (ih k (List.mem_of_mem_filter hmem))

/-- Counterexample to claim C6 as stated: a single historical "gym" bill
(one-member group) dated before today produces two synthetic instances, so
groups with fewer than 2 members are not skipped. -/
theorem claim6_counterexample :
    (generateRecurringTransactions [⟨"gym", "gym", 50, 20096, .bill, false, none⟩]
      20178 20139).length = 2 := by decide

/-- Claim C6 amended: the guard skips only empty groups (`length < 1`), and
every group reachable from the grouping step is nonempty, so the guard never
fires; in particular a one-member non-paycheck group whose occurrence is
before today does generate synthetic instances as soon as the first monthly
occurrence is within the horizon.  No error is raised (generation is total
and yields a plain list). -/
theorem claim6_min_group_size (today endDate : Int) :
    (genForGroup today endDate [] = [])
    ∧ (∀ (transactions : List Transaction) (k : String × TxType),
        k ∈ dedupKeys (transactions.map txKey) →
        transactions.filter (fun t => decide (txKey t = k)) ≠ [])
    ∧ (∀ t : Transaction, t.date < today → t.type ≠ .paycheck →
        ¬ (monthOccurrence
            (nextMonth (civilFromDays t.date).year ((civilFromDays t.date).month - 1)).1
            (nextMonth (civilFromDays t.date).year ((civilFromDays t.date).month - 1)).2
            (civilFromDays t.date).day > endDate) →
        genForGroup today endDate [t] ≠ []) := by
  refine ⟨rfl, ?_, ?_⟩
  · intro transactions k hk
    rcases List.mem_map.mp (dedupKeys_subset _ k hk) with ⟨t, hmem, hkey⟩
    intro hempty
    have : t ∈ transactions.filter (fun t => decide (txKey t = k)) :=
      List.mem_filter.mpr ⟨hmem, by rw [hkey]; simp⟩
    rw [hempty] at this
    simp at this
  · intro t hpast hty hreach
    unfold genForGroup
    rw [if_neg (by simp : ¬ ([t].length < 1))]
    show genForGroupCore today endDate [t] t ≠ []
    unfold genForGroupCore
    dsimp only
    rw [if_pos hpast]
    rw [if_neg (by
      rintro (h | h)
      · exact hty h
      · rw [show intervalsOf ((List.insertionSort dateLe [t]).map (fun t => t.date)) = []
            from rfl] at h
        rw [show avgIntervalOf [] = 30 from rfl] at h
        rcases h with ⟨_, hle⟩
        norm_num at hle)]
    rw [show (50 : Nat) = 49 + 1 from rfl, monthlyGo_succ]
    rw [if_neg hreach]
    simp

/-- Closed witness for the amended claim C6. -/
theorem claim6_min_group_size_witness :
    genForGroup 20139 20178 [⟨"gym", "gym", 50, 20096, .bill, false, none⟩] ≠ [] := by
  have h := (claim6_min_group_size 20139 20178).2.2
    ⟨"gym", "gym", 50, 20096, .bill, false, none⟩ (by decide) (by decide) (by decide)
  exact h

/-! ## Claim C10 -/

set_option maxRecDepth 100000 in
/-- Claim C10: a group synthesizes instances only when its most recent
occurrence (the last element of the date-sorted group, which bounds every
member's date) is strictly before today; generation anchors at that last
occurrence — the first bi-weekly instance is one inferred interval after it
and the first monthly instance is in the calendar month following it — so
synthetic instances can be dated before today and land on historical days,
as the concrete run shows. -/
theorem claim10_generation_anchored (today endDate : Int) :
    (∀ (group : List Transaction) (lastTx : Transaction),
      (List.insertionSort dateLe group).getLast? = some lastTx →
      ¬ lastTx.date < today →
      genForGroup today endDate group = [])
    ∧ (∀ (group : List Transaction) (lastTx : Transaction),
      (List.insertionSort dateLe group).getLast? = some lastTx →
      ∀ t, t ∈ group → t.date ≤ lastTx.date)
    ∧ (∀ (group : List Transaction) (lastTx u : Transaction),
      lastTx.date < today →
      (lastTx.type = .paycheck ∨
        (10 ≤ avgIntervalOf (intervalsOf ((List.insertionSort dateLe group).map
            (fun t => t.date)))
          ∧ avgIntervalOf (intervalsOf ((List.insertionSort dateLe group).map
            (fun t => t.date))) ≤ 18)) →
      (genForGroupCore today endDate group lastTx).head? = some u →
      u.date = lastTx.date + jsRound (avgIntervalOf (intervalsOf
        ((List.insertionSort dateLe group).map (fun t => t.date)))))
    ∧ (∀ (group : List Transaction) (lastTx u : Transaction),
      lastTx.date < today →
      ¬ (lastTx.type = .paycheck ∨
        (10 ≤ avgIntervalOf (intervalsOf ((List.insertionSort dateLe group).map
            (fun t => t.date)))
          ∧ avgIntervalOf (intervalsOf ((List.insertionSort dateLe group).map
            (fun t => t.date))) ≤ 18)) →
      (genForGroupCore today endDate group lastTx).head? = some u →
      u.date = monthOccurrence
        (nextMonth (civilFromDays lastTx.date).year
          ((civilFromDays lastTx.date).month - 1)).1
        (nextMonth (civilFromDays lastTx.date).year
          ((civilFromDays lastTx.date).month - 1)).2
        (civilFromDays lastTx.date).day)
    ∧ (((computeProjection [⟨"gym", "gym", 50, 20096, .bill, false, none⟩] 100
          ⟨1, 14, 2000⟩ (daysFromCivil 2025 6 15)).periods.get
          ⟨31, by decide⟩).isHistorical = true
      ∧ (((computeProjection [⟨"gym", "gym", 50, 20096, .bill, false, none⟩] 100
          ⟨1, 14, 2000⟩ (daysFromCivil 2025 6 15)).periods.get
          ⟨31, by decide⟩).transactions.any (fun t => t.recurring)) = true) := by
  refine ⟨?_, ?_, ?_, ?_, ?_, ?_⟩
  · intro group lastTx hlast hnot
    unfold genForGroup
    split_ifs with h1
    · rfl
    · rw [hlast]
      show genForGroupCore today endDate group lastTx = []
      unfold genForGroupCore
      dsimp only
      rw [if_neg hnot]
  · intro group lastTx hlast t ht
    exact insertionSort_getLast_ge group lastTx hlast t ht
  · intro group lastTx u hpast hbranch hhead
    unfold genForGroupCore at hhead
    dsimp only at hhead
    rw [if_pos hpast, if_pos hbranch] at hhead
    rw [show (50 : Nat) = 49 + 1 from rfl, biweeklyGo_succ] at hhead
    by_cases hc : lastTx.date + jsRound (avgIntervalOf (intervalsOf
        ((List.insertionSort dateLe group).map (fun t => t.date)))) ≤ endDate
        ∧ (0 : Nat) < 50
    · rw [if_pos hc] at hhead
      simp only [List.head?_cons, Option.some.injEq] at hhead
      rw [← hhead, mkFutureTx_date]
    · rw [if_neg hc] at hhead
      simp at hhead
  · intro group lastTx u hpast hbranch hhead
    unfold genForGroupCore at hhead
    dsimp only at hhead
    rw [if_pos hpast, if_neg hbranch] at hhead
    rw [show (50 : Nat) = 49 + 1 from rfl, monthlyGo_succ] at hhead
    by_cases hc : monthOccurrence
        (nextMonth (civilFromDays lastTx.date).year
          ((civilFromDays lastTx.date).month - 1)).1
        (nextMonth (civilFromDays lastTx.date).year
          ((civilFromDays lastTx.date).month - 1)).2
        (civilFromDays lastTx.date).day > endDate
    · rw [if_pos hc] at hhead
      simp at hhead
    · rw [if_neg hc] at hhead
      simp only [List.head?_cons, Option.some.injEq] at hhead
      rw [← hhead, mkFutureTx_date]
  · decide
  · decide

/-- Closed witness for claim C10. -/
theorem claim10_generation_anchored_witness :
    genForGroup 0 100 [⟨"x", "x", 5, 0, .bill, false, none⟩] = [] :=
  (claim10_generation_anchored 0 100).1 [⟨"x", "x", 5, 0, .bill, false, none⟩]
    ⟨"x", "x", 5, 0, .bill, false, none⟩ (by decide) (by decide)

/-! ## Claim C4 -/

theorem adjustForWeekend_dow (e : Int) :
    getDay (adjustForWeekend e) ≠ 0 ∧ getDay (adjustForWeekend e) ≠ 6 := by
  unfold adjustForWeekend getDay
  split_ifs <;> constructor <;> omega

theorem flagMonthlyGo_dow (base : Transaction) (dayOfMonth endDate : Int) :
    ∀ (fuel : Nat) (cy cm : Int) (count : Nat) (t : Transaction),
      t ∈ flagMonthlyGo base dayOfMonth endDate cy cm count fuel →
      getDay t.date ≠ 0 ∧ getDay t.date ≠ 6 := by
  intro fuel
  induction fuel with
  | zero => intro cy cm c t ht; simp [flagMonthlyGo] at ht
  | succ n ih =>
    intro cy cm c t ht
    unfold flagMonthlyGo at ht
    dsimp only at ht
    split_ifs at ht with hc
    · simp at ht
    · rcases List.mem_cons.mp ht with rfl | hmem
      · rw [mkFutureTx_date]
        exact adjustForWeekend_dow _
      · exact ih (nextMonth cy cm).1 (nextMonth cy cm).2 (c + 1) t hmem

/-- Counterexample to claim C4 as stated: a detected monthly pattern
("rent" on 2025-01-08 and 2025-02-08, average interval 31 days) synthesizes
its next occurrence on 2025-03-08 — a Saturday (`getDay = 6`) — without any
weekend shift in the pattern-inference generator. -/
theorem claim4_counterexample :
    ((generateRecurringTransactions
        [⟨"r1", "rent", 1500, 20096, .bill, false, none⟩,
         ⟨"r2", "rent", 1500, 20127, .bill, false, none⟩] 20160 20139).map
      (fun t => t.date) = [20155])
    ∧ getDay 20155 = 6 := by
  constructor
  · with_unfolding_all decide
  · decide

/-- Claim C4 amended: the monthly-occurrence computation clamps an
overflowing anchor day to the last day of the target month (day-31 anchors
land on Feb 28, or Feb 29 in leap years), but only the flag-driven generator
applies the weekend shift — its `adjustForWeekend` moves Saturday/Sunday
dates forward to the following Monday and all of its output avoids
weekends; the pattern-inference generator performs no weekend shift. -/
theorem claim4_monthly_edge_cases :
    (∀ cy cm d : Int, 0 ≤ cm → cm ≤ 11 → 1 ≤ d → d ≤ 31 →
      (daysInMonth0 cy cm < d →
        monthOccurrence cy cm d = jsMkDate cy cm (daysInMonth0 cy cm))
      ∧ (d ≤ daysInMonth0 cy cm → monthOccurrence cy cm d = jsMkDate cy cm d))
    ∧ (∀ y : Int, monthOccurrence y 1 31 = jsMkDate y 1 (if isLeap y then 29 else 28))
    ∧ (∀ e : Int,
        (getDay e = 0 → adjustForWeekend e = e + 1 ∧ getDay (e + 1) = 1)
        ∧ (getDay e = 6 → adjustForWeekend e = e + 2 ∧ getDay (e + 2) = 1)
        ∧ (getDay e ≠ 0 → getDay e ≠ 6 → adjustForWeekend e = e))
    ∧ (∀ (transactions : List Transaction) (endDate today : Int) (t : Transaction),
        t ∈ generateRecurringTransactionsFlag transactions endDate today →
        getDay t.date ≠ 0 ∧ getDay t.date ≠ 6) := by
  have hmain : ∀ cy cm d : Int, 0 ≤ cm → cm ≤ 11 → 1 ≤ d → d ≤ 31 →
      (daysInMonth0 cy cm < d →
        monthOccurrence cy cm d = jsMkDate cy cm (daysInMonth0 cy cm))
      ∧ (d ≤ daysInMonth0 cy cm → monthOccurrence cy cm d = jsMkDate cy cm d) := by
    intro cy cm d h0 h11 h1 h31
    constructor
    · intro hlt
      unfold monthOccurrence
      rw [if_pos (by
        rw [getMonth_jsMkDate_of_gt cy cm d h0 h11 hlt h31]
        split_ifs <;> omega)]
      rw [jsMkDate_eq cy cm (daysInMonth0 cy cm) h0 h11]
      rcases eq_or_ne cm 11 with hcm | hcm
      · subst hcm
        unfold jsMkDate
        norm_num
        have hnext := daysFromCivil_next cy 12 (by norm_num) (by norm_num)
        rw [if_pos rfl, if_pos rfl] at hnext
        unfold daysInMonth0
        norm_num
        omega
      · rw [jsMkDate_eq cy (cm + 1) 0 (by omega) (by omega)]
        have hnext := daysFromCivil_next cy (cm + 1) (by omega) (by omega)
        rw [if_neg (by omega), if_neg (by omega)] at hnext
        have hzero : daysFromCivil cy (cm + 1 + 1) 0
            = daysFromCivil cy (cm + 1 + 1) 1 + (-1) := by
          rw [← daysFromCivil_add cy (cm + 1 + 1) 1 (-1)]
          norm_num
        unfold daysInMonth0
        omega
    · intro hle
      unfold monthOccurrence
      rw [if_neg (by
        rw [getMonth_jsMkDate_of_le cy cm d h0 h11 h1 hle]
        simp)]
  refine ⟨hmain, ?_, ?_, ?_⟩
  · intro y
    have h28 : daysInMonth0 y 1 = if isLeap y then 29 else 28 := by
      unfold daysInMonth0 daysInMonthC
      norm_num
    have hlt : daysInMonth0 y 1 < 31 := by
      rw [h28]; split_ifs <;> norm_num
    rw [(hmain y 1 31 (by norm_num) (by norm_num) (by norm_num) (by norm_num)).1 hlt, h28]
  · intro e
    refine ⟨?_, ?_, ?_⟩
    · intro h
      unfold adjustForWeekend
      rw [if_pos h]
      refine ⟨rfl, ?_⟩
      unfold getDay at h ⊢
      omega
    · intro h
      unfold adjustForWeekend
      rw [if_neg (by unfold getDay at h ⊢; omega), if_pos h]
      refine ⟨rfl, ?_⟩
      unfold getDay at h ⊢
      omega
    · intro h0 h6
      unfold adjustForWeekend
      rw [if_neg h0, if_neg h6]
  · intro transactions endDate today t ht
    unfold generateRecurringTransactionsFlag at ht
    rcases List.mem_flatMap.mp ht with ⟨b, _, hmem⟩
    dsimp only at hmem
    exact flagMonthlyGo_dow b _ endDate 50 _ _ 0 t hmem

/-- Closed witness for the amended claim C4. -/
theorem claim4_monthly_edge_cases_witness :
    monthOccurrence 2025 1 31 = jsMkDate 2025 1 28 := by
  have h := (claim4_monthly_edge_cases.1 2025 1 31 (by norm_num) (by norm_num)
    (by norm_num) (by norm_num)).1 (by decide)
  rw [h]
  decide

end MoneyCalendar
